import Mathlib

/-!
Verification development for the Idea Planner server
(`src/server/index.js`, Express + MongoDB).

The reachable server state is a MongoDB collection of room documents with a
unique index on `code`; we embed it as a `List Room` (in insertion order,
`findOne` = first match) and each HTTP mutation handler as a pure function.
Handlers never write to the collection on an error path, so an operation
returning `Except.error e` leaves the store unchanged by construction
(`applyOp` makes that explicit).  `new Date()` timestamps are threaded in
as explicit `Nat` arguments, and `randomUUID()` / `Math.random()` results
are threaded in as explicit id / index arguments.

The request-transport layer (routing, JSON parsing, `sanitizeName` trimming
and slicing, CORS) is outside the modelled core; handler-internal semantic
checks (empty-id guards, `toLowerCase` comparisons, `PHASES.includes`,
phase gates, quota checks) are embedded faithfully.
-/

deriving instance DecidableEq for Except

namespace IdeaPlanner

/-- `String.prototype.toLowerCase`, character by character (the names and
phase values compared in the source are ASCII). -/
def jsToLower (s : String) : String :=
  String.mk (s.data.map Char.toLower)

/-- A room participant (`participants` array entries).
`role` is the string `"admin"` or `"participant"` in the source. -/
structure Participant where
  id : String
  name : String
  role : String
  joinedAt : Nat
  deriving Repr, DecidableEq

/-- The `topic` subdocument set by `createRoomDocument` and the topic route. -/
structure Topic where
  title : String
  createdAt : Nat
  createdById : Option String
  deriving Repr, DecidableEq

/-- An entry of an idea's `details` array (`POST …/ideas/:ideaId/details`). -/
structure IdeaDetail where
  id : String
  text : String
  authorId : String
  authorName : String
  createdAt : Nat
  deriving Repr, DecidableEq

/-- An entry of a room's `ideas` array (`POST …/ideas`). -/
structure Idea where
  id : String
  title : String
  description : String
  authorId : String
  authorName : String
  createdAt : Nat
  votes : List String
  details : List IdeaDetail
  deriving Repr, DecidableEq

/-- A room document as stored in the `rooms` collection.  `id` embeds the
Mongo `_id`; `phase` is stored as a string (`'ideate'` initially). -/
structure Room where
  id : String
  code : String
  roomName : String
  adminName : String
  participants : List Participant
  topic : Option Topic
  phase : String
  phaseEndsAt : Option Nat
  ideas : List Idea
  createdAt : Nat
  updatedAt : Nat
  deriving Repr, DecidableEq

/-- Typed failures of the mutation handlers; each constructor corresponds to
one non-2xx response of `src/server/index.js` (source message in comment). -/
inductive ApiError where
  | badRequest                -- 400, missing/invalid required fields
  | roomNotFound              -- 404 'Room not found'
  | notInRoom                 -- 403 'You are not part of this room'
  | forbiddenHost             -- 403 'Only the host can …'
  | hostSelfRemove            -- 400 'Host cannot remove themselves here'
  | participantNotFound       -- 404 'Participant not found in room'
  | sessionEnded              -- 400 'Session ended, details locked'
  | quotaExceeded             -- 400 'You already submitted 3 ideas'
  | votingClosed              -- 400 'Voting closed'
  | ideaNotFound              -- 404 'Idea not found'
  | alreadyVoted              -- 400 'You already voted on this idea'
  | invalidPhase              -- 400 'Valid phase and admin id are required'
  | codeGenerationExhausted   -- 500 'Failed to create unique room code, please retry'
  deriving Repr, DecidableEq

/-- `const PHASES = ['ideate', 'ended']` (line 21 of the server). -/
def PHASES : List String := ["ideate", "ended"]

/-- `const LETTERS = 'ABCDEFGHJKLMNPQRSTUVWXYZ23456789'` (line 20). -/
def LETTERS : String := "ABCDEFGHJKLMNPQRSTUVWXYZ23456789"

/-- `ensureParticipant(room, participantId)`: first participant with the
given id, if any. -/
def ensureParticipant (room : Room) (participantId : String) : Option Participant :=
  room.participants.find? (fun p => p.id = participantId)

/-- `isAdminParticipant(participant)`: `participant?.role === 'admin'`. -/
def isAdminParticipant (p : Participant) : Bool :=
  p.role = "admin"

/-- `(room.participants ?? []).find(isAdminParticipant)`: the host lookup
used by the admin-gated handlers. -/
def hostParticipant (room : Room) : Option Participant :=
  room.participants.find? isAdminParticipant

/-- An errored handler performs no `updateOne`/`deleteOne`, so the stored
room is unchanged; `applyOp` expresses the store effect of one handler call. -/
def applyOp (res : Except ApiError Room) (room : Room) : Room :=
  match res with
  | .ok room' => room'
  | .error _ => room

/-- Store-level analogue of `applyOp` for the handlers that act on the
whole collection (`endRoom`): an errored call deletes nothing. -/
def applyStoreOp (res : Except ApiError (List Room)) (store : List Room) : List Room :=
  match res with
  | .ok store' => store'
  | .error _ => store

/-- Rewrite the first idea whose `id` matches, leaving the rest untouched:
the effect of Mongo's positional `ideas.$` update under filter
`{'ideas.id': ideaId}`. -/
def updateFirstIdea (ideas : List Idea) (ideaId : String) (f : Idea → Idea) : List Idea :=
  match ideas with
  | [] => []
  | i :: rest =>
    if i.id = ideaId then f i :: rest
    else i :: updateFirstIdea rest ideaId f

/-- `POST /api/rooms/:code/ideas/:ideaId/vote` (lines 473–519), from the
point where the room document has been fetched.  The handler checks, in
order: non-empty participant id, membership, `room.phase === 'ended'`
(→ 'Voting closed'), idea existence, and `idea.votes.includes(participantId)`
(→ 'You already voted on this idea'); then `$push`es the id onto
`ideas.$.votes` and bumps `updatedAt`. -/
def voteOnIdea (room : Room) (participantId ideaId : String) (now : Nat) :
    Except ApiError Room :=
  if participantId = "" then .error .badRequest
  else if (ensureParticipant room participantId).isNone then .error .notInRoom
  else if room.phase = "ended" then .error .votingClosed
  else
    match room.ideas.find? (fun entry => entry.id = ideaId) with
    | none => .error .ideaNotFound
    | some idea =>
      if participantId ∈ idea.votes then .error .alreadyVoted
      else .ok { room with
        ideas := updateFirstIdea room.ideas ideaId
          (fun i => { i with votes := i.votes ++ [participantId] }),
        updatedAt := now }

/-- `alreadyParticipant` check of `POST /api/rooms/join` (lines 163–165):
some existing participant's name matches case-insensitively. -/
def alreadyParticipant (room : Room) (participantName : String) : Bool :=
  room.participants.any (fun p => jsToLower p.name = jsToLower participantName)

/-- `POST /api/rooms/join` (lines 144–196), from the point where the room
document has been fetched (code shape and non-empty name are checked by the
transport-side guards before the lookup).  If a case-insensitive name match
exists, nothing is written; otherwise a fresh `role='participant'` entry is
`$push`ed and `updatedAt` is bumped. -/
def joinRoom (room : Room) (participantName newId : String) (now : Nat) : Room :=
  if alreadyParticipant room participantName then room
  else { room with
    participants := room.participants ++
      [{ id := newId, name := participantName, role := "participant", joinedAt := now }],
    updatedAt := now }

/-- `POST /api/rooms/:code/ideas` (lines 410–471), from the point where the
room has been fetched.  Checks in order: required fields, membership,
`room.phase === 'ended'` (the source repeats this check twice with two
different messages; only the first, 'Session ended, details locked', can
fire), and the 3-idea quota for non-admin authors; then `$push`es the idea. -/
def addIdea (room : Room) (participantId title description newId : String)
    (now : Nat) : Except ApiError Room :=
  if participantId = "" ∨ title = "" ∨ description = "" then .error .badRequest
  else
    match ensureParticipant room participantId with
    | none => .error .notInRoom
    | some participant =>
      if room.phase = "ended" then .error .sessionEnded
      else
        let participantIsAdmin := participant.role = "admin"
        let participantIdeaCount :=
          (room.ideas.filter (fun idea => idea.authorId = participantId)).length
        if ¬participantIsAdmin ∧ 3 ≤ participantIdeaCount then .error .quotaExceeded
        else .ok { room with
          ideas := room.ideas ++
            [{ id := newId, title := title, description := description,
               authorId := participantId, authorName := participant.name,
               createdAt := now, votes := [], details := [] }],
          updatedAt := now }

/-- `POST /api/rooms/:code/ideas/:ideaId/details` (lines 521–564), from the
point where the room has been fetched.  After the membership check the
handler issues `updateOne({_id, 'ideas.id': ideaId}, …)`: when no idea has
the given id the filter matches no document, so nothing is written (not
even `updatedAt`), and the handler still responds 200 'Detail added'.
The returned string is the handler's response message. -/
def addDetail (room : Room) (participantId ideaId text newId : String)
    (now : Nat) : Except ApiError (Room × String) :=
  if participantId = "" ∨ text = "" then .error .badRequest
  else
    match ensureParticipant room participantId with
    | none => .error .notInRoom
    | some participant =>
      if room.ideas.any (fun i => i.id = ideaId) then
        .ok ({ room with
          ideas := updateFirstIdea room.ideas ideaId
            (fun i => { i with details := i.details ++
              [{ id := newId, text := text, authorId := participantId,
                 authorName := participant.name, createdAt := now }] }),
          updatedAt := now }, "Detail added")
      else .ok (room, "Detail added")

/-- `POST /api/rooms/:code/phase` (lines 566–603), from the point where the
room has been fetched for the admin check.  The handler lower-cases the
requested phase and rejects it unless `PHASES.includes(requestedPhase)`
(that 400 fires before the room lookup); a requester who is not the host
gets 403; otherwise `phase`, `phaseEndsAt` and `updatedAt` are `$set`. -/
def setPhase (room : Room) (adminId phase : String) (phaseEndsAt : Option Nat)
    (now : Nat) : Except ApiError Room :=
  let requestedPhase := jsToLower phase
  if adminId = "" ∨ ¬(requestedPhase ∈ PHASES) then .error .invalidPhase
  else if (hostParticipant room).map Participant.id ≠ some adminId then
    .error .forbiddenHost
  else .ok { room with
    phase := requestedPhase, phaseEndsAt := phaseEndsAt, updatedAt := now }

/-- `POST /api/rooms/:code/topic` (lines 368–408), from the point where the
room has been fetched. -/
def setTopic (room : Room) (adminId title : String) (now : Nat) :
    Except ApiError Room :=
  if adminId = "" ∨ title = "" then .error .badRequest
  else if (hostParticipant room).map Participant.id ≠ some adminId then
    .error .forbiddenHost
  else .ok { room with
    topic := some { title := title, createdAt := now, createdById := some adminId },
    updatedAt := now }

/-- `DELETE /api/rooms/:code/participants/:participantId` (lines 319–366),
from the point where the room has been fetched.  `$pull` removes every
array element with the target id; `modifiedCount === 0` (→ 404 'Participant
not found in room') can only happen when the whole update is a no-op, i.e.
nothing was pulled and the `$set` of `updatedAt` did not change the stored
value either. -/
def removeParticipant (room : Room) (adminId participantId : String) (now : Nat) :
    Except ApiError Room :=
  if participantId = "" then .error .badRequest
  else if adminId = "" then .error .badRequest
  else if (hostParticipant room).map Participant.id ≠ some adminId then
    .error .forbiddenHost
  else if participantId = adminId then .error .hostSelfRemove
  else
    let pulled := room.participants.filter (fun p => p.id ≠ participantId)
    if pulled = room.participants ∧ now = room.updatedAt then
      .error .participantNotFound
    else .ok { room with participants := pulled, updatedAt := now }

/-- `GET /api/rooms/:code` (lines 198–217) over the whole collection:
`findOne({code})` is the first stored room with that code. -/
def getRoom (store : List Room) (code : String) : Except ApiError Room :=
  if code = "" ∨ code.length ≠ 5 then .error .badRequest
  else
    match store.find? (fun r => r.code = code) with
    | none => .error .roomNotFound
    | some room => .ok room

/-- `DELETE /api/rooms/:code` (lines 285–317) over the whole collection.
After the host check, `deleteOne({_id: room._id})` removes the first (and,
ids being unique, only) document with the fetched room's `_id`. -/
def endRoom (store : List Room) (code adminId : String) :
    Except ApiError (List Room) :=
  if code = "" ∨ code.length ≠ 5 then .error .badRequest
  else if adminId = "" then .error .badRequest
  else
    match store.find? (fun r => r.code = code) with
    | none => .error .roomNotFound
    | some room =>
      if (hostParticipant room).map Participant.id ≠ some adminId then
        .error .forbiddenHost
      else .ok (store.eraseP (fun r => r.id = room.id))

/-- `generateRoomCode(length = 5)` (lines 23–30): one character per round,
each `LETTERS[Math.floor(Math.random() * LETTERS.length)]`.  The random
draw is threaded in as `f : Nat → Nat`; in the source the index is always
`< LETTERS.length`, so the `getD` default is unreachable. -/
def generateRoomCode (f : Nat → Nat) (length : Nat := 5) : String :=
  String.mk ((List.range length).map (fun i => LETTERS.toList.getD (f i) 'A'))

/-- The fresh room document built inside `createRoomDocument` (lines 80–103):
one admin participant, default topic, phase `'ideate'`, no ideas. -/
def mkRoomDoc (code adminName roomName mongoId participantId : String)
    (now : Nat) : Room :=
  { id := mongoId, code := code,
    roomName := if roomName = "" then "Untitled Room" else roomName,
    adminName := adminName,
    participants :=
      [{ id := participantId, name := adminName, role := "admin", joinedAt := now }],
    topic := some { title := "Untitled ideation", createdAt := now, createdById := none },
    phase := "ideate", phaseEndsAt := none, ideas := [],
    createdAt := now, updatedAt := now }

/-- The retry loop of `createRoomDocument` (lines 78–114): `remaining`
attempts left, the next one numbered `attempt`; each attempt calls
`generateRoomCode()` with its own random draws `rand attempt`.  `insertOne`
throws a duplicate-key error (11000) exactly when the unique index on
`code` already holds the candidate code; the loop then retries. -/
def createRoomLoop (store : List Room) (adminName roomName mongoId participantId : String)
    (rand : Nat → Nat → Nat) (now : Nat) : Nat → Nat → Except ApiError Room
  | _, 0 => .error .codeGenerationExhausted
  | attempt, remaining + 1 =>
    let code := generateRoomCode (rand attempt)
    if store.any (fun r => r.code = code) then
      createRoomLoop store adminName roomName mongoId participantId rand now
        (attempt + 1) remaining
    else .ok (mkRoomDoc code adminName roomName mongoId participantId now)

/-- `createRoomDocument({adminName, roomName})` (lines 76–116): up to 5
attempts, the random draws of attempt `a` supplied by `rand a`. -/
def createRoomDocument (store : List Room) (adminName roomName mongoId participantId : String)
    (rand : Nat → Nat → Nat) (now : Nat) : Except ApiError Room :=
  createRoomLoop store adminName roomName mongoId participantId rand now 0 5

/-- A change-stream notification as seen by the `'change'` handler of
`GET /api/rooms/:code/stream` (lines 255–267): either a delete, or a
change carrying the full updated document (`fullDocument: 'updateLookup'`),
or one without it. -/
inductive ChangeEvent where
  | delete
  | update (fullDocument : Room)
  | updateNoDoc
  deriving Repr, DecidableEq

/-- An SSE payload written by `sendEvent` on the subscriber channel. -/
inductive StreamEvent where
  | init (room : Room)
  | closed (adminName : String)
  | update (room : Room)
  | streamError (message : String)
  deriving Repr, DecidableEq

/-- The `'change'` listener of the stream route (lines 255–267) as a pure
step: given the current `latestAdminName` and one change notification, it
returns the events written, the new `latestAdminName`, and whether the
channel was ended server-side (`res.end()`).  A delete emits `closed` and
ends the channel; a change with a full document is always forwarded as
`update` (the handler never consults the subscriber's membership in the
new snapshot). -/
def onChange (latestAdminName : String) (change : ChangeEvent) :
    List StreamEvent × String × Bool :=
  match change with
  | .delete => ([.closed latestAdminName], latestAdminName, true)
  | .update doc => ([.update doc], doc.adminName, false)
  | .updateNoDoc => ([], latestAdminName, false)

/-- The room written back by a successful vote: positional `$push` of the
participant id onto the first matching idea's `votes`, plus the
`updatedAt` bump. -/
def voteApplied (room : Room) (participantId ideaId : String) (now : Nat) : Room :=
  { room with
    ideas := updateFirstIdea room.ideas ideaId
      (fun i => { i with votes := i.votes ++ [participantId] }),
    updatedAt := now }

/-! ### Helper lemmas -/

theorem updateFirstIdea_find? (ideas : List Idea) (ideaId : String)
    (f : Idea → Idea) (idea : Idea) (hf : ∀ i, (f i).id = i.id)
    (h : ideas.find? (fun e => e.id = ideaId) = some idea) :
    (updateFirstIdea ideas ideaId f).find? (fun e => e.id = ideaId) = some (f idea) := by
  induction ideas with
  | nil => simp at h
  | cons i rest ih =>
    by_cases hid : i.id = ideaId
    · rw [List.find?_cons_of_pos _ (by simpa using hid)] at h
      injection h with h'
      subst h'
      unfold updateFirstIdea
      rw [if_pos hid]
      exact List.find?_cons_of_pos _ (by simpa using (hf i).trans hid)
    · rw [List.find?_cons_of_neg _ (by simpa using hid)] at h
      unfold updateFirstIdea
      rw [if_neg hid, List.find?_cons_of_neg _ (by simpa using hid)]
      exact ih h

theorem isNone_false_of_isSome {α : Type} {o : Option α} (h : o.isSome = true) :
    ¬(o.isNone = true) := by
  cases o with
  | none => simp at h
  | some a => simp

/-! ### C1 — the vote endpoint is not a toggle -/

def roomC1 : Room :=
  { id := "r1", code := "ABCDE", roomName := "Kickoff", adminName := "Alex",
    participants := [{ id := "a1", name := "Alex", role := "admin", joinedAt := 0 },
                     { id := "p1", name := "Sam", role := "participant", joinedAt := 1 }],
    topic := none, phase := "ideate", phaseEndsAt := none,
    ideas := [{ id := "i1", title := "Kick", description := "Off", authorId := "a1",
                authorName := "Alex", createdAt := 0, votes := [], details := [] }],
    createdAt := 0, updatedAt := 0 }

/-- C1, counterexample: in `roomC1` (phase `ideate`, participant `p1` with no
vote on idea `i1`), applying the vote operation twice does not restore the
original vote-set state: the first call records the vote and the second is
rejected with 'You already voted on this idea', leaving the vote set at
`["p1"]`, not `[]` — so the operation is not self-inverse. -/
theorem vote_twice_not_self_inverse_cex :
    (applyOp (voteOnIdea (applyOp (voteOnIdea roomC1 "p1" "i1" 1) roomC1) "p1" "i1" 2)
        (applyOp (voteOnIdea roomC1 "p1" "i1" 1) roomC1)).ideas.map
        (fun i => i.votes) = [["p1"]] ∧
    roomC1.ideas.map (fun i => i.votes) = [[]] ∧
    voteOnIdea (applyOp (voteOnIdea roomC1 "p1" "i1" 1) roomC1) "p1" "i1" 2 =
      .error .alreadyVoted := by
  decide

/-- C1, amended: for every room, known participant `pid` and existing idea,
the vote endpoint is add-only, not a toggle: if `pid` already appears in the
idea's vote set the call fails with 'You already voted on this idea'
(leaving the room unchanged); if `pid` is absent the call appends `pid` to
the idea's vote set, and a repeated call on the result is rejected with the
same error rather than removing the vote — so an even number of
applications does not restore the original vote-set state. -/
theorem vote_add_if_absent_reject_if_present
    (room : Room) (pid ideaId : String) (t t' : Nat) (idea : Idea)
    (hpid : pid ≠ "")
    (hmem : (ensureParticipant room pid).isSome = true)
    (hph : room.phase ≠ "ended")
    (hidea : room.ideas.find? (fun e => e.id = ideaId) = some idea) :
    (pid ∈ idea.votes → voteOnIdea room pid ideaId t = .error .alreadyVoted) ∧
    (pid ∉ idea.votes →
      voteOnIdea room pid ideaId t = .ok (voteApplied room pid ideaId t) ∧
      (voteApplied room pid ideaId t).ideas.find? (fun e => e.id = ideaId) =
        some { idea with votes := idea.votes ++ [pid] } ∧
      voteOnIdea (voteApplied room pid ideaId t) pid ideaId t' =
        .error .alreadyVoted) := by
  have hnone := isNone_false_of_isSome hmem
  have hfind' : (voteApplied room pid ideaId t).ideas.find? (fun e => e.id = ideaId) =
      some { idea with votes := idea.votes ++ [pid] } :=
    updateFirstIdea_find? room.ideas ideaId _ idea (fun _ => rfl) hidea
  constructor
  · intro hv
    unfold voteOnIdea
    rw [if_neg hpid, if_neg hnone, if_neg hph, hidea]
    simp [hv]
  · intro hv
    refine ⟨?_, hfind', ?_⟩
    · unfold voteOnIdea
      rw [if_neg hpid, if_neg hnone, if_neg hph, hidea]
      simp [hv, voteApplied]
    · have hmem' : (ensureParticipant (voteApplied room pid ideaId t) pid).isSome = true := hmem
      have hnone' := isNone_false_of_isSome hmem'
      have hph' : (voteApplied room pid ideaId t).phase ≠ "ended" := hph
      unfold voteOnIdea
      rw [if_neg hpid, if_neg hnone', if_neg hph', hfind']
      simp

/-! ### C2 — the voting phase gate -/

def roomC2 : Room :=
  { id := "r2", code := "FGHJK", roomName := "Retro", adminName := "Alex",
    participants := [{ id := "a1", name := "Alex", role := "admin", joinedAt := 0 },
                     { id := "p1", name := "Sam", role := "participant", joinedAt := 1 }],
    topic := none, phase := "ended", phaseEndsAt := none,
    ideas := [{ id := "i1", title := "Kick", description := "Off", authorId := "a1",
                authorName := "Alex", createdAt := 0, votes := [], details := [] }],
    createdAt := 0, updatedAt := 0 }

/-- C2, counterexample: in `roomC2` the phase is `ended` — a member of the
claim's votable set `{ended, planning}`, so the claim predicts the vote
succeeds — yet the handler rejects the vote of known participant `p1` on
existing idea `i1` with 'Voting closed': the code fails exactly when
phase = ended, not when phase ∉ {ended, planning}. -/
theorem vote_fails_when_ended_cex :
    roomC2.phase = "ended" ∧
    (ensureParticipant roomC2 "p1").isSome = true ∧
    roomC2.ideas.any (fun i => i.id = "i1") = true ∧
    voteOnIdea roomC2 "p1" "i1" 2 = .error .votingClosed := by
  decide

/-- C2, amended: a vote by a known participant fails with 'Voting closed'
if and only if the room's phase is `ended`; in particular voting is not
phase-blocked when phase = `ideate` (the only other reachable phase). -/
theorem vote_votingClosed_iff_ended (room : Room) (pid ideaId : String) (t : Nat)
    (hpid : pid ≠ "") (hmem : (ensureParticipant room pid).isSome = true) :
    (voteOnIdea room pid ideaId t = .error .votingClosed) ↔ room.phase = "ended" := by
  have hnone := isNone_false_of_isSome hmem
  constructor
  · intro h
    by_contra hph
    unfold voteOnIdea at h
    rw [if_neg hpid, if_neg hnone, if_neg hph] at h
    cases hfind : room.ideas.find? (fun e => e.id = ideaId) with
    | none => rw [hfind] at h; simp at h
    | some idea =>
      rw [hfind] at h
      by_cases hv : pid ∈ idea.votes
      · simp [hv] at h
      · simp [hv] at h
  · intro h
    unfold voteOnIdea
    rw [if_neg hpid, if_neg hnone, if_pos h]

/-- C2, witness for `vote_votingClosed_iff_ended` at `roomC2`. -/
theorem vote_votingClosed_iff_ended_witness :
    (voteOnIdea roomC2 "p1" "i1" 2 = .error .votingClosed) ↔ roomC2.phase = "ended" :=
  vote_votingClosed_iff_ended roomC2 "p1" "i1" 2 (by decide) (by decide)

/-- C1, witness for `vote_add_if_absent_reject_if_present` at `roomC1`. -/
theorem vote_add_if_absent_reject_if_present_witness :
    voteOnIdea roomC1 "p1" "i1" 1 = .ok (voteApplied roomC1 "p1" "i1" 1) ∧
    voteOnIdea (voteApplied roomC1 "p1" "i1" 1) "p1" "i1" 2 = .error .alreadyVoted := by
  have h := (vote_add_if_absent_reject_if_present roomC1 "p1" "i1" 1 2
    { id := "i1", title := "Kick", description := "Off", authorId := "a1",
      authorName := "Alex", createdAt := 0, votes := [], details := [] }
    (by decide) (by decide) (by decide) (by decide)).2 (by decide)
  exact ⟨h.1, h.2.2⟩

/-! ### C3 — valid phase values and the admin gate -/

def roomC3 : Room :=
  { id := "r3", code := "LMNPQ", roomName := "Sprint", adminName := "Alex",
    participants := [{ id := "a1", name := "Alex", role := "admin", joinedAt := 0 },
                     { id := "p1", name := "Sam", role := "participant", joinedAt := 1 }],
    topic := none, phase := "ideate", phaseEndsAt := none, ideas := [],
    createdAt := 0, updatedAt := 0 }

/-- C3, counterexample: `a1` is `roomC3`'s admin, yet `setPhase` with the
value `planning` is rejected with 400 'Valid phase and admin id are
required' — `PHASES` is `['ideate', 'ended']`, so `planning` is not a valid
phase and the claim's "succeeds for each of the three phase values" fails. -/
theorem setPhase_planning_rejected_cex :
    hostParticipant roomC3 =
      some { id := "a1", name := "Alex", role := "admin", joinedAt := 0 } ∧
    setPhase roomC3 "a1" "planning" none 2 = .error .invalidPhase := by
  decide

/-- C3, amended: for every existing room with an admin, `setPhase` by the
admin succeeds for each of the two phase values `ideate` and `ended` (any
value to any value, no enforced sequence), fails for any non-admin
requester with a valid phase value, and rejects the value `planning` as
invalid for every requester. -/
theorem setPhase_two_values_admin_gate
    (room : Room) (req ph : String) (pe : Option Nat) (t : Nat) (a : Participant)
    (hadmin : hostParticipant room = some a) (hreq : req ≠ "") :
    (jsToLower ph ∈ PHASES → req = a.id →
      setPhase room req ph pe t =
        .ok { room with phase := jsToLower ph, phaseEndsAt := pe, updatedAt := t }) ∧
    (jsToLower ph ∈ PHASES → req ≠ a.id →
      setPhase room req ph pe t = .error .forbiddenHost) ∧
    setPhase room req "planning" pe t = .error .invalidPhase := by
  refine ⟨?_, ?_, ?_⟩
  · intro hph hid
    simp only [setPhase]
    rw [if_neg (not_or.mpr ⟨hreq, not_not_intro hph⟩)]
    rw [if_neg (by simp [hadmin, hid])]
  · intro hph hid
    simp only [setPhase]
    rw [if_neg (not_or.mpr ⟨hreq, not_not_intro hph⟩)]
    rw [if_pos (by simp [hadmin]; exact fun hEq => hid hEq.symm)]
  · simp only [setPhase]
    rw [if_pos (Or.inr (by decide))]

/-- C3, witness for `setPhase_two_values_admin_gate` at `roomC3`: the admin
moves the phase to `ended`; the non-admin `p1` is refused. -/
theorem setPhase_two_values_admin_gate_witness :
    setPhase roomC3 "a1" "ended" none 2 =
      .ok { roomC3 with phase := jsToLower "ended", phaseEndsAt := none, updatedAt := 2 } ∧
    setPhase roomC3 "p1" "ended" none 2 = .error .forbiddenHost := by
  refine ⟨?_, ?_⟩
  · exact (setPhase_two_values_admin_gate roomC3 "a1" "ended" none 2
      { id := "a1", name := "Alex", role := "admin", joinedAt := 0 }
      (by decide) (by decide)).1 (by decide) (by decide)
  · exact (setPhase_two_values_admin_gate roomC3 "p1" "ended" none 2
      { id := "a1", name := "Alex", role := "admin", joinedAt := 0 }
      (by decide) (by decide)).2.1 (by decide) (by decide)

/-! ### C4 — the 3-idea quota for non-admin authors -/

/-- C4: in a room whose phase is not `ended`, an `addIdea` by a known
non-admin participant who has already authored 3 (or more) ideas fails with
'You already submitted 3 ideas' and writes nothing, while an `addIdea` by
the admin participant succeeds unconditionally — no quota hypothesis is
needed — appending the new idea and bumping `updatedAt`. -/
theorem addIdea_quota_nonadmin_uncapped_admin
    (room : Room) (pid title desc nid : String) (t : Nat) (p : Participant)
    (hpid : pid ≠ "") (ht : title ≠ "") (hd : desc ≠ "")
    (hfind : ensureParticipant room pid = some p) (hph : room.phase ≠ "ended") :
    (p.role ≠ "admin" →
      3 ≤ (room.ideas.filter (fun i => i.authorId = pid)).length →
      addIdea room pid title desc nid t = .error .quotaExceeded ∧
      applyOp (addIdea room pid title desc nid t) room = room) ∧
    (p.role = "admin" →
      addIdea room pid title desc nid t =
        .ok { room with
          ideas := room.ideas ++
            [{ id := nid, title := title, description := desc, authorId := pid,
               authorName := p.name, createdAt := t, votes := [], details := [] }],
          updatedAt := t }) := by
  have hbad : ¬(pid = "" ∨ title = "" ∨ desc = "") := by
    push_neg
    exact ⟨hpid, ht, hd⟩
  constructor
  · intro hrole hcount
    have herr : addIdea room pid title desc nid t = .error .quotaExceeded := by
      simp only [addIdea]
      rw [if_neg hbad, hfind]
      simp only
      rw [if_neg hph, if_pos ⟨hrole, hcount⟩]
    exact ⟨herr, by rw [herr]; rfl⟩
  · intro hrole
    simp only [addIdea]
    rw [if_neg hbad, hfind]
    simp only
    rw [if_neg hph, if_neg (by rintro ⟨h1, _⟩; exact h1 hrole)]

def roomC4 : Room :=
  { id := "r4", code := "RSTUV", roomName := "Jam", adminName := "Alex",
    participants := [{ id := "a1", name := "Alex", role := "admin", joinedAt := 0 },
                     { id := "p1", name := "Sam", role := "participant", joinedAt := 1 }],
    topic := none, phase := "ideate", phaseEndsAt := none,
    ideas := [{ id := "i1", title := "One", description := "d", authorId := "p1",
                authorName := "Sam", createdAt := 2, votes := [], details := [] },
              { id := "i2", title := "Two", description := "d", authorId := "p1",
                authorName := "Sam", createdAt := 3, votes := [], details := [] },
              { id := "i3", title := "Three", description := "d", authorId := "p1",
                authorName := "Sam", createdAt := 4, votes := [], details := [] },
              { id := "i4", title := "Host1", description := "d", authorId := "a1",
                authorName := "Alex", createdAt := 5, votes := [], details := [] },
              { id := "i5", title := "Host2", description := "d", authorId := "a1",
                authorName := "Alex", createdAt := 6, votes := [], details := [] },
              { id := "i6", title := "Host3", description := "d", authorId := "a1",
                authorName := "Alex", createdAt := 7, votes := [], details := [] }],
    createdAt := 0, updatedAt := 0 }

/-- C4, witness for `addIdea_quota_nonadmin_uncapped_admin` at `roomC4`:
non-admin `p1`'s 4th idea is refused and writes nothing, while the admin
`a1` — who already authored 3 ideas as well — still succeeds. -/
theorem addIdea_quota_witness :
    (addIdea roomC4 "p1" "Four" "d" "i7" 8 = .error .quotaExceeded ∧
      applyOp (addIdea roomC4 "p1" "Four" "d" "i7" 8) roomC4 = roomC4) ∧
    addIdea roomC4 "a1" "Host4" "d" "i8" 9 =
      .ok { roomC4 with
        ideas := roomC4.ideas ++
          [{ id := "i8", title := "Host4", description := "d", authorId := "a1",
             authorName := "Alex", createdAt := 9, votes := [], details := [] }],
        updatedAt := 9 } := by
  constructor
  · exact (addIdea_quota_nonadmin_uncapped_admin roomC4 "p1" "Four" "d" "i7" 8
      { id := "p1", name := "Sam", role := "participant", joinedAt := 1 }
      (by decide) (by decide) (by decide) (by decide) (by decide)).1
      (by decide) (by decide)
  · exact (addIdea_quota_nonadmin_uncapped_admin roomC4 "a1" "Host4" "d" "i8" 9
      { id := "a1", name := "Alex", role := "admin", joinedAt := 0 }
      (by decide) (by decide) (by decide) (by decide) (by decide)).2 (by decide)

/-! ### C10 — addDetail with an unknown idea id silently succeeds -/

/-- C10: an `addDetail` by a known participant whose `ideaId` matches no
idea in the room responds 200 'Detail added' (not an idea-not-found
failure) and leaves the room document entirely unchanged — the
`updateOne` filter `{_id, 'ideas.id': ideaId}` matches no document, so no
detail is appended and `updatedAt` does not advance. -/
theorem addDetail_missing_idea_success_noop
    (room : Room) (pid ideaId text nid : String) (t : Nat) (p : Participant)
    (hpid : pid ≠ "") (htext : text ≠ "")
    (hfind : ensureParticipant room pid = some p)
    (hmiss : ∀ i ∈ room.ideas, i.id ≠ ideaId) :
    addDetail room pid ideaId text nid t = .ok (room, "Detail added") := by
  have hany : room.ideas.any (fun i => i.id = ideaId) = false := by
    rw [List.any_eq_false]
    simpa using hmiss
  simp only [addDetail]
  rw [if_neg (not_or.mpr ⟨hpid, htext⟩), hfind]
  simp only
  rw [if_neg (by simp [hany])]

def roomC10 : Room :=
  { id := "r10", code := "WXYZ2", roomName := "Notes", adminName := "Alex",
    participants := [{ id := "a1", name := "Alex", role := "admin", joinedAt := 0 }],
    topic := none, phase := "ideate", phaseEndsAt := none,
    ideas := [{ id := "i1", title := "Only", description := "d", authorId := "a1",
                authorName := "Alex", createdAt := 1, votes := [], details := [] }],
    createdAt := 0, updatedAt := 3 }

/-- C10, witness for `addDetail_missing_idea_success_noop` at `roomC10`:
idea id `zzz` matches nothing, the response is 'Detail added', and the
returned room is `roomC10` itself (`updatedAt` still 3). -/
theorem addDetail_missing_idea_witness :
    addDetail roomC10 "a1" "zzz" "hello" "d1" 9 = .ok (roomC10, "Detail added") :=
  addDetail_missing_idea_success_noop roomC10 "a1" "zzz" "hello" "d1" 9
    { id := "a1", name := "Alex", role := "admin", joinedAt := 0 }
    (by decide) (by decide) (by decide) (by decide)

/-! ### C5 — endRoom: admin gate and hard delete -/

theorem eraseP_by_id_find?_code_none (store : List Room) (code : String) (room : Room)
    (hfind : store.find? (fun r => r.code = code) = some room)
    (hids : store.Pairwise (fun r s => r.id ≠ s.id))
    (hcodes : store.Pairwise (fun r s => r.code ≠ s.code)) :
    (store.eraseP (fun r => r.id = room.id)).find? (fun r => r.code = code) = none := by
  induction store with
  | nil => simp at hfind
  | cons x xs ih =>
    rw [List.pairwise_cons] at hids hcodes
    by_cases hx : x.code = code
    · rw [List.find?_cons_of_pos _ (by simpa using hx)] at hfind
      injection hfind with h'
      subst h'
      rw [List.eraseP_cons_of_pos (by simp)]
      rw [List.find?_eq_none]
      intro y hy
      simp only [decide_eq_true_eq]
      intro hyc
      exact (hcodes.1 y hy) (hx.trans hyc.symm)
    · rw [List.find?_cons_of_neg _ (by simpa using hx)] at hfind
      have hmem := List.mem_of_find?_eq_some hfind
      rw [List.eraseP_cons_of_neg (by simpa using hids.1 room hmem)]
      rw [List.find?_cons_of_neg _ (by simpa using hx)]
      exact ih hfind hids.2 hcodes.2

/-- C5: over a well-formed store (pairwise-distinct `_id`s and codes, as
the unique index guarantees), `endRoom` on an existing room fails with 403
'Only the host can end this room' — deleting nothing — whenever the
requester id is not the admin participant's id, and with the admin's id it
deletes exactly that room document, after which `getRoom` with the same
code fails 404 'Room not found'. -/
theorem endRoom_admin_gate_and_delete
    (store : List Room) (code req : String) (room : Room) (a : Participant)
    (hcode : code.length = 5) (hreq : req ≠ "")
    (hfind : store.find? (fun r => r.code = code) = some room)
    (hadmin : hostParticipant room = some a)
    (hids : store.Pairwise (fun r s => r.id ≠ s.id))
    (hcodes : store.Pairwise (fun r s => r.code ≠ s.code)) :
    (req ≠ a.id →
      endRoom store code req = .error .forbiddenHost ∧
      applyStoreOp (endRoom store code req) store = store) ∧
    (req = a.id →
      endRoom store code req = .ok (store.eraseP (fun r => r.id = room.id)) ∧
      getRoom (store.eraseP (fun r => r.id = room.id)) code = .error .roomNotFound) := by
  have hcne : code ≠ "" := by
    intro h
    rw [h] at hcode
    exact absurd hcode (by decide)
  have hc0 : ¬(code = "" ∨ code.length ≠ 5) := not_or.mpr ⟨hcne, not_not_intro hcode⟩
  constructor
  · intro hne
    have herr : endRoom store code req = .error .forbiddenHost := by
      simp only [endRoom]
      rw [if_neg hc0, if_neg hreq, hfind]
      simp only
      rw [if_pos (by simp [hadmin]; exact fun hEq => hne hEq.symm)]
    exact ⟨herr, by rw [herr]; rfl⟩
  · intro heq
    refine ⟨?_, ?_⟩
    · simp only [endRoom]
      rw [if_neg hc0, if_neg hreq, hfind]
      simp only
      rw [if_neg (by simp [hadmin, heq])]
    · simp only [getRoom]
      rw [if_neg hc0, eraseP_by_id_find?_code_none store code room hfind hids hcodes]

def storeC5 : List Room :=
  [{ id := "r5a", code := "ABCDE", roomName := "Kick", adminName := "Alex",
     participants := [{ id := "a1", name := "Alex", role := "admin", joinedAt := 0 },
                      { id := "p1", name := "Sam", role := "participant", joinedAt := 1 }],
     topic := none, phase := "ideate", phaseEndsAt := none, ideas := [],
     createdAt := 0, updatedAt := 0 },
   { id := "r5b", code := "FGHJK", roomName := "Other", adminName := "Bo",
     participants := [{ id := "b1", name := "Bo", role := "admin", joinedAt := 0 }],
     topic := none, phase := "ideate", phaseEndsAt := none, ideas := [],
     createdAt := 0, updatedAt := 0 }]

/-- C5, witness for `endRoom_admin_gate_and_delete` on `storeC5`: non-admin
`p1` is refused and the store is untouched; admin `a1` deletes room
`ABCDE`, after which `getRoom` on that code is 'Room not found'. -/
theorem endRoom_admin_gate_and_delete_witness :
    (endRoom storeC5 "ABCDE" "p1" = .error .forbiddenHost ∧
      applyStoreOp (endRoom storeC5 "ABCDE" "p1") storeC5 = storeC5) ∧
    (endRoom storeC5 "ABCDE" "a1" =
        .ok (storeC5.eraseP (fun r => r.id = "r5a")) ∧
      getRoom (storeC5.eraseP (fun r => r.id = "r5a")) "ABCDE" =
        .error .roomNotFound) := by
  constructor
  · exact (endRoom_admin_gate_and_delete storeC5 "ABCDE" "p1"
      { id := "r5a", code := "ABCDE", roomName := "Kick", adminName := "Alex",
        participants := [{ id := "a1", name := "Alex", role := "admin", joinedAt := 0 },
                         { id := "p1", name := "Sam", role := "participant", joinedAt := 1 }],
        topic := none, phase := "ideate", phaseEndsAt := none, ideas := [],
        createdAt := 0, updatedAt := 0 }
      { id := "a1", name := "Alex", role := "admin", joinedAt := 0 }
      (by decide) (by decide) (by decide) (by decide) (by decide) (by decide)).1
      (by decide)
  · exact (endRoom_admin_gate_and_delete storeC5 "ABCDE" "a1"
      { id := "r5a", code := "ABCDE", roomName := "Kick", adminName := "Alex",
        participants := [{ id := "a1", name := "Alex", role := "admin", joinedAt := 0 },
                         { id := "p1", name := "Sam", role := "participant", joinedAt := 1 }],
        topic := none, phase := "ideate", phaseEndsAt := none, ideas := [],
        createdAt := 0, updatedAt := 0 }
      { id := "a1", name := "Alex", role := "admin", joinedAt := 0 }
      (by decide) (by decide) (by decide) (by decide) (by decide) (by decide)).2
      (by decide)

/-! ### C6 — joinRoom is idempotent on case-insensitive names -/

/-- C6: if some existing participant's name matches the given name
case-insensitively, `joinRoom` inserts nothing and the room — roster,
`updatedAt` and all — is returned unchanged; and two `joinRoom` calls with
the same name (whatever their ids and times) grow the participant count by
at most one, because the first call either inserts the name or finds it,
making the second call a no-op either way. -/
theorem joinRoom_of_already (room : Room) (name newId : String) (t : Nat)
    (h : alreadyParticipant room name = true) : joinRoom room name newId t = room := by
  unfold joinRoom
  rw [if_pos h]

theorem joinRoom_idempotent_case_insensitive
    (room : Room) (name id1 id2 : String) (t1 t2 : Nat) :
    (alreadyParticipant room name = true → joinRoom room name id1 t1 = room) ∧
    (joinRoom (joinRoom room name id1 t1) name id2 t2).participants.length ≤
      room.participants.length + 1 := by
  constructor
  · exact joinRoom_of_already room name id1 t1
  · by_cases h : alreadyParticipant room name = true
    · rw [joinRoom_of_already room name id1 t1 h, joinRoom_of_already room name id2 t2 h]
      exact Nat.le_succ _
    · have h2 : alreadyParticipant (joinRoom room name id1 t1) name = true := by
        unfold joinRoom
        rw [if_neg h]
        simp [alreadyParticipant, List.any_append]
      rw [joinRoom_of_already _ name id2 t2 h2]
      unfold joinRoom
      rw [if_neg h]
      simp

def roomC6 : Room :=
  { id := "r6", code := "AB2DE", roomName := "Hall", adminName := "Alex",
    participants := [{ id := "a1", name := "Alex", role := "admin", joinedAt := 0 },
                     { id := "p1", name := "Sam", role := "participant", joinedAt := 1 }],
    topic := none, phase := "ideate", phaseEndsAt := none, ideas := [],
    createdAt := 0, updatedAt := 0 }

/-- C6, witness for `joinRoom_idempotent_case_insensitive` at `roomC6`:
"SAM" matches the existing "Sam" case-insensitively, so the join returns
the room unchanged; and a double join of the fresh name "Kim" adds at most
one participant. -/
theorem joinRoom_idempotent_witness :
    joinRoom roomC6 "SAM" "p9" 7 = roomC6 ∧
    (joinRoom (joinRoom roomC6 "Kim" "p8" 8) "Kim" "p9" 9).participants.length ≤
      roomC6.participants.length + 1 :=
  ⟨(joinRoom_idempotent_case_insensitive roomC6 "SAM" "p9" "x" 7 0).1 (by decide),
   (joinRoom_idempotent_case_insensitive roomC6 "Kim" "p8" "p9" 8 9).2⟩

/-! ### C7 — what the subscriber channel does when the subscriber is gone -/

def docC7 : Room :=
  { id := "r7", code := "ABCDE", roomName := "Kick", adminName := "Alex",
    participants := [{ id := "a1", name := "Alex", role := "admin", joinedAt := 0 }],
    topic := none, phase := "ideate", phaseEndsAt := none, ideas := [],
    createdAt := 0, updatedAt := 9 }

/-- C7, counterexample: `docC7` is an updated snapshot in which subscriber
`sam` is no longer listed, yet the server's change handler (subscribed with
last known admin "Alex") emits exactly one plain `update` event carrying
the snapshot and does not terminate the channel — no `removed` event
exists anywhere in the handler, contradicting the claim that such a
snapshot yields `removed` naming the admin followed by termination. -/
theorem stream_no_removed_event_cex :
    docC7.participants.all (fun p => p.id ≠ "sam") = true ∧
    onChange "Alex" (ChangeEvent.update docC7) =
      ([StreamEvent.update docC7], docC7.adminName, false) := by
  decide

/-- C7, amended: every change notification that carries a full updated
snapshot — including one in which the subscribing participant is no longer
listed — is forwarded to the subscriber as a plain `update` event with the
channel left open (the client detects its own removal from the snapshot);
the handler terminates the channel server-side only on a deletion
notification, emitting `closed` naming the last known admin. -/
theorem stream_update_forwarded_closed_on_delete (latestAdminName : String) (doc : Room) :
    onChange latestAdminName (ChangeEvent.update doc) =
      ([StreamEvent.update doc], doc.adminName, false) ∧
    onChange latestAdminName ChangeEvent.delete =
      ([StreamEvent.closed latestAdminName], latestAdminName, true) :=
  ⟨rfl, rfl⟩

/-! ### C8 — createRoom: code shape, collision retry, exhaustion -/

theorem generateRoomCode_length (f : Nat → Nat) : (generateRoomCode f).length = 5 :=
  rfl

theorem generateRoomCode_mem_alphabet (f : Nat → Nat) :
    ∀ c ∈ (generateRoomCode f).toList, c ∈ LETTERS.toList := by
  intro c hc
  replace hc : c ∈ (List.range 5).map (fun i => LETTERS.toList.getD (f i) 'A') := hc
  rw [List.mem_map] at hc
  obtain ⟨i, _, rfl⟩ := hc
  rw [List.getD_eq_getElem?_getD]
  cases h : LETTERS.toList[f i]? with
  | none => simp only [h, Option.getD_none]; decide
  | some x =>
    simp only [h, Option.getD_some]
    exact List.getElem?_mem h

theorem createRoomLoop_exhausted_iff
    (store : List Room) (adminName roomName mongoId pid : String)
    (rand : Nat → Nat → Nat) (t : Nat) :
    ∀ n a,
      (createRoomLoop store adminName roomName mongoId pid rand t a n =
          .error .codeGenerationExhausted ↔
        ∀ k < n, store.any (fun r => r.code = generateRoomCode (rand (a + k))) = true) := by
  intro n
  induction n with
  | zero => intro a; simp [createRoomLoop]
  | succ m ih =>
    intro a
    unfold createRoomLoop
    by_cases hc : store.any (fun r => r.code = generateRoomCode (rand a)) = true
    · rw [if_pos hc, ih (a + 1)]
      constructor
      · intro h k hk
        cases k with
        | zero => simpa using hc
        | succ j =>
          have hj := h j (by omega)
          have ha : a + 1 + j = a + (j + 1) := by omega
          rw [ha] at hj
          exact hj
      · intro h k hk
        have hk1 := h (k + 1) (by omega)
        have ha : a + (k + 1) = a + 1 + k := by omega
        rw [ha] at hk1
        exact hk1
    · rw [if_neg hc]
      constructor
      · intro h
        exact absurd h (by simp)
      · intro h
        exact absurd (by simpa using h 0 (by omega)) hc

theorem createRoomLoop_ok
    (store : List Room) (adminName roomName mongoId pid : String)
    (rand : Nat → Nat → Nat) (t : Nat) :
    ∀ n a room',
      createRoomLoop store adminName roomName mongoId pid rand t a n = .ok room' →
      ∃ k, a ≤ k ∧ k < a + n ∧
        room' = mkRoomDoc (generateRoomCode (rand k)) adminName roomName mongoId pid t ∧
        store.any (fun r => r.code = generateRoomCode (rand k)) = false := by
  intro n
  induction n with
  | zero => intro a room' h; simp [createRoomLoop] at h
  | succ m ih =>
    intro a room' h
    unfold createRoomLoop at h
    by_cases hc : store.any (fun r => r.code = generateRoomCode (rand a)) = true
    · rw [if_pos hc] at h
      obtain ⟨k, hk1, hk2, hk3, hk4⟩ := ih (a + 1) room' h
      exact ⟨k, by omega, by omega, hk3, hk4⟩
    · rw [if_neg hc] at h
      injection h with h'
      exact ⟨a, Nat.le_refl a, by omega, h'.symm, by simpa using hc⟩

/-- C8: `createRoomDocument` fails with 'Failed to create unique room code'
exactly when each of its 5 attempts generates a code already present in
the store (collision on the unique index); and every successfully persisted
room has a code of exactly 5 characters drawn from the fixed unambiguous
alphabet `LETTERS`, absent from the prior store, produced by one of the
5 `generateRoomCode` attempts, and carries exactly one participant,
the admin. -/
theorem createRoom_code_shape_retry_exhaustion
    (store : List Room) (adminName roomName mongoId pid : String)
    (rand : Nat → Nat → Nat) (t : Nat) :
    ((createRoomDocument store adminName roomName mongoId pid rand t =
        .error .codeGenerationExhausted) ↔
      ∀ a < 5, store.any (fun r => r.code = generateRoomCode (rand a)) = true) ∧
    (∀ room',
      createRoomDocument store adminName roomName mongoId pid rand t = .ok room' →
      room'.code.length = 5 ∧
      (∀ c ∈ room'.code.toList, c ∈ LETTERS.toList) ∧
      room'.participants =
        [{ id := pid, name := adminName, role := "admin", joinedAt := t }] ∧
      store.any (fun r => r.code = room'.code) = false ∧
      ∃ a < 5, room'.code = generateRoomCode (rand a)) := by
  constructor
  · have h := createRoomLoop_exhausted_iff store adminName roomName mongoId pid rand t 5 0
    simpa using h
  · intro room' h
    obtain ⟨k, _, hk5, rfl, hany⟩ :=
      createRoomLoop_ok store adminName roomName mongoId pid rand t 5 0 room' h
    exact ⟨generateRoomCode_length _, generateRoomCode_mem_alphabet _, rfl, hany,
      k, by omega, rfl⟩

/-- C8, witness for `createRoom_code_shape_retry_exhaustion` with the empty
store and the identity random draws (candidate code "ABCDE" on the first
attempt): the insert succeeds and keeps exactly one admin participant. -/
theorem createRoom_witness :
    createRoomDocument [] "Alex" "" "r1" "a1" (fun _ i => i) 0 =
      .ok (mkRoomDoc (generateRoomCode (fun i => i)) "Alex" "" "r1" "a1" 0) ∧
    (mkRoomDoc (generateRoomCode (fun i => i)) "Alex" "" "r1" "a1" 0).participants =
      [{ id := "a1", name := "Alex", role := "admin", joinedAt := 0 }] :=
  ⟨by decide,
   ((createRoom_code_shape_retry_exhaustion [] "Alex" "" "r1" "a1" (fun _ i => i) 0).2
      (mkRoomDoc (generateRoomCode (fun i => i)) "Alex" "" "r1" "a1" 0)
      (by decide)).2.2.1⟩

/-! ### C9 — exactly one admin, fixed at creation -/

/-- One accepted room-mutating handler call: every route of the server that
rewrites an existing room document (join, remove-participant, phase, topic,
idea, vote, detail). -/
inductive Step : Room → Room → Prop where
  | join (r : Room) (name newId : String) (t : Nat) :
      Step r (joinRoom r name newId t)
  | removeP (r r' : Room) (adminId targetId : String) (t : Nat) :
      removeParticipant r adminId targetId t = .ok r' → Step r r'
  | phase (r r' : Room) (adminId ph : String) (pe : Option Nat) (t : Nat) :
      setPhase r adminId ph pe t = .ok r' → Step r r'
  | topic (r r' : Room) (adminId title : String) (t : Nat) :
      setTopic r adminId title t = .ok r' → Step r r'
  | idea (r r' : Room) (pid title desc nid : String) (t : Nat) :
      addIdea r pid title desc nid t = .ok r' → Step r r'
  | vote (r r' : Room) (pid ideaId : String) (t : Nat) :
      voteOnIdea r pid ideaId t = .ok r' → Step r r'
  | detail (r r' : Room) (pid ideaId text nid : String) (t : Nat) (msg : String) :
      addDetail r pid ideaId text nid t = .ok (r', msg) → Step r r'

/-- Room states reachable from `r0` by accepted mutations. -/
inductive Reachable (r0 : Room) : Room → Prop where
  | refl : Reachable r0 r0
  | tail {r r' : Room} : Reachable r0 r → Step r r' → Reachable r0 r'

theorem setPhase_ok_participants {r r' : Room} {aid ph : String} {pe : Option Nat}
    {t : Nat} (h : setPhase r aid ph pe t = .ok r') : r'.participants = r.participants := by
  simp only [setPhase] at h
  split at h
  · simp at h
  split at h
  · simp at h
  · injection h with h'
    rw [← h']

theorem setTopic_ok_participants {r r' : Room} {aid title : String} {t : Nat}
    (h : setTopic r aid title t = .ok r') : r'.participants = r.participants := by
  simp only [setTopic] at h
  split at h
  · simp at h
  split at h
  · simp at h
  · injection h with h'
    rw [← h']

theorem addIdea_ok_participants {r r' : Room} {pid title desc nid : String} {t : Nat}
    (h : addIdea r pid title desc nid t = .ok r') : r'.participants = r.participants := by
  simp only [addIdea] at h
  split at h
  · simp at h
  split at h
  · simp at h
  split at h
  · simp at h
  split at h
  · simp at h
  · injection h with h'
    rw [← h']

theorem voteOnIdea_ok_participants {r r' : Room} {pid ideaId : String} {t : Nat}
    (h : voteOnIdea r pid ideaId t = .ok r') : r'.participants = r.participants := by
  simp only [voteOnIdea] at h
  split at h
  · simp at h
  split at h
  · simp at h
  split at h
  · simp at h
  split at h
  · simp at h
  split at h
  · simp at h
  · injection h with h'
    rw [← h']

theorem addDetail_ok_participants {r r' : Room} {pid ideaId text nid msg : String}
    {t : Nat} (h : addDetail r pid ideaId text nid t = .ok (r', msg)) :
    r'.participants = r.participants := by
  simp only [addDetail] at h
  split at h
  · simp at h
  split at h
  · simp at h
  · split at h
    · injection h with h'
      simp only [Prod.mk.injEq] at h'
      rw [← h'.1]
    · injection h with h'
      simp only [Prod.mk.injEq] at h'
      rw [← h'.1]

theorem find?_of_filter_eq_singleton {α : Type} {p : α → Bool} {l : List α} {a : α}
    (h : l.filter p = [a]) : l.find? p = some a := by
  induction l with
  | nil => simp at h
  | cons x xs ih =>
    by_cases hx : p x = true
    · rw [List.filter_cons_of_pos hx] at h
      injection h with h1 h2
      rw [List.find?_cons_of_pos _ hx, h1]
    · rw [List.filter_cons_of_neg hx] at h
      rw [List.find?_cons_of_neg _ hx]
      exact ih h

theorem joinRoom_admins (r : Room) (name nid : String) (t : Nat) (a : Participant)
    (h : r.participants.filter isAdminParticipant = [a]) :
    (joinRoom r name nid t).participants.filter isAdminParticipant = [a] := by
  unfold joinRoom
  split
  · exact h
  · simp only [List.filter_append, h]
    simp [isAdminParticipant]

theorem removeParticipant_admins {r r' : Room} {aid tid : String} {t : Nat}
    (a : Participant) (h : removeParticipant r aid tid t = .ok r')
    (hinv : r.participants.filter isAdminParticipant = [a]) :
    r'.participants.filter isAdminParticipant = [a] := by
  simp only [removeParticipant] at h
  split at h
  · simp at h
  split at h
  · simp at h
  split at h
  · simp at h
  next hhost =>
  split at h
  · simp at h
  next htid =>
  split at h
  · simp at h
  injection h with h'
  have hhost' : (hostParticipant r).map Participant.id = some aid := not_not.mp hhost
  have hfindA : r.participants.find? isAdminParticipant = some a :=
    find?_of_filter_eq_singleton hinv
  have haid : a.id = aid := by
    rw [hostParticipant] at hhost'
    rw [hfindA] at hhost'
    injection hhost'
  have hane : a.id ≠ tid := by
    rw [haid]
    exact fun hEq => htid hEq.symm
  rw [← h']
  rw [List.filter_filter]
  have hcomm :
      (fun x => isAdminParticipant x && decide (x.id ≠ tid)) =
        (fun x => decide (x.id ≠ tid) && isAdminParticipant x) := by
    funext x
    exact Bool.and_comm _ _
  rw [hcomm, ← List.filter_filter, hinv]
  simp [hane]

theorem step_preserves_admins {r r' : Room} (a : Participant) (hs : Step r r')
    (hinv : r.participants.filter isAdminParticipant = [a]) :
    r'.participants.filter isAdminParticipant = [a] := by
  cases hs with
  | join name nid t => exact joinRoom_admins r name nid t a hinv
  | removeP r' aid tid t h => exact removeParticipant_admins a h hinv
  | phase r' aid ph pe t h => rw [setPhase_ok_participants h]; exact hinv
  | topic r' aid title t h => rw [setTopic_ok_participants h]; exact hinv
  | idea r' pid title desc nid t h => rw [addIdea_ok_participants h]; exact hinv
  | vote r' pid ideaId t h => rw [voteOnIdea_ok_participants h]; exact hinv
  | detail r' pid ideaId text nid t msg h =>
      rw [addDetail_ok_participants h]; exact hinv

/-- C9: in every room state reachable from a freshly created room document
by accepted mutations (joins, participant removals, phase, topic, idea,
vote and detail writes), the participants with `role='admin'` are exactly
the single admin entry minted by `createRoomDocument` — no operation adds
a second admin, removes the admin, or transfers the role. -/
theorem reachable_unique_admin
    (code adminName roomName mongoId pid : String) (t : Nat) (r : Room)
    (h : Reachable (mkRoomDoc code adminName roomName mongoId pid t) r) :
    r.participants.filter isAdminParticipant =
      [{ id := pid, name := adminName, role := "admin", joinedAt := t }] := by
  induction h with
  | refl => simp [mkRoomDoc, isAdminParticipant]
  | tail hr hstep ih => exact step_preserves_admins _ hstep ih

/-- C9, witness for `reachable_unique_admin`: after creating `"ABCDE"` with
admin `a1` and one `joinRoom` of "Sam", the admin-role participants are
still exactly the creation-time admin entry. -/
theorem reachable_unique_admin_witness :
    (joinRoom (mkRoomDoc "ABCDE" "Alex" "Kick" "r1" "a1" 0) "Sam" "p1" 1).participants.filter
        isAdminParticipant =
      [{ id := "a1", name := "Alex", role := "admin", joinedAt := 0 }] :=
  reachable_unique_admin "ABCDE" "Alex" "Kick" "r1" "a1" 0 _
    (Reachable.tail Reachable.refl
      (Step.join (mkRoomDoc "ABCDE" "Alex" "Kick" "r1" "a1" 0) "Sam" "p1" 1))

end IdeaPlanner
